import Mathlib

/-!
Verification of the continuous Univariate Marginal Distribution Algorithm
(UMDA) optimizer from `qiskit/algorithms/optimizers/umda.py`.

The Python class `UMDA` is embedded shallowly:

* Scalars are modelled as exact rationals (`ℚ`).  Decimal constants of the
  source (`0.5`, `0.4`, `0.3`) are the rationals they denote; `np.pi` is an
  irrational constant and is modelled by a fixed rational approximation
  `np_pi` (no verified property depends on its value).
* `scipy.stats.norm.fit` returns the sample mean together with the square
  root of the maximum-likelihood variance.  The square root is irrational in
  general, so the embedding takes the square-root function `sq : ℚ → ℚ` as a
  parameter and applies it to the exact variance.
* `algorithm_globals.random.normal(mu, sigma, [rows, cols])` is an external
  pseudo-random source (out of scope per the interface); it is modelled as a
  function parameter `rng` receiving exactly the arguments the source passes.
* `numpy.ndarray.argsort()` is called with its default `quicksort` kind,
  which returns some permutation of the indices ordering the values
  ascending; its order among equal values is unspecified (introsort is not a
  stable sort).  It is therefore modelled as a function parameter `ags`,
  constrained where needed by the documented contract (a permutation of the
  index range that sorts the values).
* The mutable object state is a record `UMDAState`; each Python method is a
  state-transforming function.  `minimize` is run-to-completion and pure, so
  it returns the result record together with the final state.
-/

/-- Python `int()` applied to a rational: truncation toward zero. -/
def pyInt (q : ℚ) : ℤ := if 0 ≤ q then ⌊q⌋ else ⌈q⌉

/-- Python builtin `min` over a sequence of rationals (the source applies it
to the nonempty evaluations array; the `[]` case is junk). -/
def pyMin : List ℚ → ℚ
  | [] => 0
  | x :: xs => xs.foldl min x

/-- First index of value `v` in a list, as `np.where(evals == v)[0][0]`
(junk — the length — when absent). -/
def firstIdx (v : ℚ) : List ℚ → ℕ
  | [] => 0
  | x :: xs => if x = v then 0 else firstIdx v xs + 1

/-- Column `i` of a row-major matrix, as `generation[:, i]`. -/
def col (g : List (List ℚ)) (i : ℕ) : List ℚ := g.map (fun row => row.getD i 0)

/-- Class attribute `UMDA.ELITE_FACTOR = 0.4`. -/
def ELITE_FACTOR : ℚ := 2/5

/-- Class attribute `UMDA.STD_BOUND = 0.3`. -/
def STD_BOUND : ℚ := 3/10

/-- Rational stand-in for the float constant `np.pi`. -/
def np_pi : ℚ := 3.141592653589793

/-- Sample mean, the location returned by `scipy.stats.norm.fit`. -/
def fitMean (xs : List ℚ) : ℚ := xs.sum / xs.length

/-- Maximum-likelihood variance (denominator `n`), whose square root is the
scale returned by `scipy.stats.norm.fit`. -/
def fitVar (xs : List ℚ) : ℚ :=
  ((xs.map (fun x => (x - fitMean xs) ^ 2)).sum) / xs.length

/-- The scale returned by `scipy.stats.norm.fit`, with the square root
abstracted as `sq`. -/
def fitStd (sq : ℚ → ℚ) (xs : List ℚ) : ℚ := sq (fitVar xs)

/-- The `4 × n_variables` probability-vector array `self.__vector`:
row 0 = mean, row 1 = standard deviation, row 2 = min, row 3 = max. -/
structure ProbVector where
  mu : List ℚ
  sigma : List ℚ
  lo : List ℚ
  hi : List ℚ
deriving DecidableEq

/-- `self.__best_ind_global`: initialized to the scalar `9999999`, later
overwritten by a row of the generation (an n-dimensional point). -/
inductive BestInd where
  | scalar (v : ℚ)
  | point (x : List ℚ)
deriving DecidableEq

/-- The mutable state of a `UMDA` instance (the `disp` flag, which only
controls printing, is omitted). -/
structure UMDAState where
  size_gen : ℕ
  max_iter : ℕ
  alpha : ℚ
  n_variables : ℕ
  vector : ProbVector
  dead_iter : ℚ
  best_mae_global : ℚ
  truncation_length : ℤ
  generation : List (List ℚ)
  best_ind_global : BestInd
  history : List ℚ
  evaluations : List ℚ
deriving DecidableEq

/-- The fields of the `OptimizerResult` that `minimize` fills in
(`result.x`, `result.fun`, `result.nfev`). -/
structure OptResult where
  x : BestInd
  fun_val : ℚ
  nfev : ℕ
deriving DecidableEq

/-- Type of the external normal sampler: mean vector, standard-deviation
vector, number of rows, number of columns. -/
abbrev RNG := List ℚ → List ℚ → ℕ → ℕ → List (List ℚ)

/-- `UMDA._initialization`: mean `np.pi`, standard deviation `0.5`,
min `0`, max `2 * np.pi`, in every dimension. -/
def initialization (n : ℕ) : ProbVector :=
  { mu := List.replicate n np_pi
    sigma := List.replicate n (1/2)
    lo := List.replicate n 0
    hi := List.replicate n (2 * np_pi) }

/-- `UMDA.__init__(maxiter, size_gen, n_variables, alpha, disp)`.  The body
performs no validation and raises no exception: it assigns every field,
including `truncation_length = int(size_gen * alpha)` and
`dead_iter = maxiter / 5`, and samples the first generation. -/
def initState (rng : RNG) (maxiter size_gen n_variables : ℕ) (alpha : ℚ) :
    UMDAState :=
  let vec := initialization n_variables
  { size_gen := size_gen
    max_iter := maxiter
    alpha := alpha
    n_variables := n_variables
    vector := vec
    dead_iter := (maxiter : ℚ) / 5
    best_mae_global := 999999999999
    truncation_length := pyInt ((size_gen : ℚ) * alpha)
    generation := rng vec.mu vec.sigma size_gen n_variables
    best_ind_global := BestInd.scalar 9999999
    history := []
    evaluations := [] }

/-- `UMDA._check_generation`: evaluate the objective on every row of the
current generation. -/
def checkGeneration (obj : List ℚ → ℚ) (s : UMDAState) : UMDAState :=
  { s with evaluations := s.generation.map obj }

/-- `UMDA._truncation`: keep the rows selected by the first
`truncation_length` entries of `evaluations.argsort()`, for both the
generation and the evaluations.  The argsort is the parameter `ags`. -/
def truncationWith (ags : List ℚ → List ℕ) (s : UMDAState) : UMDAState :=
  let idx := (ags s.evaluations).take s.truncation_length.toNat
  { s with
    generation := idx.map (fun i => s.generation.getD i [])
    evaluations := idx.map (fun i => s.evaluations.getD i 0) }

/-- `UMDA._update_vector`: for every dimension, re-fit mean and standard
deviation from the corresponding column of the generation, clamping a fitted
standard deviation below `STD_BOUND` to `STD_BOUND`. -/
def updateVector (sq : ℚ → ℚ) (s : UMDAState) : UMDAState :=
  { s with vector :=
    { s.vector with
      mu := (List.range s.n_variables).map (fun i => fitMean (col s.generation i))
      sigma := (List.range s.n_variables).map (fun i =>
        let sd := fitStd sq (col s.generation i)
        if sd < STD_BOUND then STD_BOUND else sd) } }

/-- `UMDA._new_generation`: keep the first `int(ELITE_FACTOR * len(generation))`
rows of the current generation and stack `size_gen` freshly sampled rows
below them. -/
def newGeneration (rng : RNG) (s : UMDAState) : UMDAState :=
  let gen := rng s.vector.mu s.vector.sigma s.size_gen s.n_variables
  let elite := s.generation.take (pyInt (ELITE_FACTOR * s.generation.length)).toNat
  { s with generation := elite ++ gen }

/-- The evaluate / truncate / re-fit prefix of one iteration of the
`minimize` loop. -/
def iterStep (sq : ℚ → ℚ) (ags : List ℚ → List ℕ) (obj : List ℚ → ℚ)
    (s : UMDAState) : UMDAState :=
  updateVector sq (truncationWith ags (checkGeneration obj s))

/-- `self.__history.append(best_mae_local)` where
`best_mae_local = min(self.__evaluations)`. -/
def pushHist (s : UMDAState) : UMDAState :=
  { s with history := s.history ++ [pyMin s.evaluations] }

/-- This iteration's best fitness, `min(evaluations)` after the
evaluate / truncate / re-fit prefix. -/
def localBest (sq : ℚ → ℚ) (ags : List ℚ → List ℕ) (obj : List ℚ → ℚ)
    (s : UMDAState) : ℚ :=
  pyMin (iterStep sq ags obj s).evaluations

/-- The state after the improving branch's bookkeeping: history appended,
`best_mae_global` set to this iteration's best, `best_ind_global` set to the
row of the (truncated) generation at the first index achieving it. -/
def improvedState (sq : ℚ → ℚ) (ags : List ℚ → List ℕ) (obj : List ℚ → ℚ)
    (s : UMDAState) : UMDAState :=
  let s1 := iterStep sq ags obj s
  let bml := pyMin s1.evaluations
  { pushHist s1 with
    best_mae_global := bml
    best_ind_global := BestInd.point (s1.generation.getD (firstIdx bml s1.evaluations) []) }

/-- The `for _ in range(max_iter)` loop of `UMDA.minimize`, with the
remaining iteration budget as fuel and the `not_better` stagnation counter
threaded through.  On strict improvement the counter restarts at `0`;
otherwise it is incremented and, when it equals `dead_iter`, the `break`
returns the state as it stands, skipping `_new_generation`.  (Both the
improvement test and the `break` test read fields that the earlier part of
the iteration does not modify, so they are phrased on `s` directly.) -/
def runLoop (rng : RNG) (sq : ℚ → ℚ) (ags : List ℚ → List ℕ)
    (obj : List ℚ → ℚ) : ℕ → ℕ → UMDAState → UMDAState
  | 0, _, s => s
  | fuel + 1, not_better, s =>
    if localBest sq ags obj s < s.best_mae_global then
      runLoop rng sq ags obj fuel 0 (newGeneration rng (improvedState sq ags obj s))
    else if ((not_better + 1 : ℕ) : ℚ) = s.dead_iter then
      pushHist (iterStep sq ags obj s)
    else
      runLoop rng sq ags obj fuel (not_better + 1)
        (newGeneration rng (pushHist (iterStep sq ags obj s)))

/-- Number of completed iterations of the `minimize` loop (a loop iteration
that ends in `break` has run to its `break`, so it counts). -/
def completedIters (rng : RNG) (sq : ℚ → ℚ) (ags : List ℚ → List ℕ)
    (obj : List ℚ → ℚ) : ℕ → ℕ → UMDAState → ℕ
  | 0, _, _ => 0
  | fuel + 1, not_better, s =>
    if localBest sq ags obj s < s.best_mae_global then
      completedIters rng sq ags obj fuel 0 (newGeneration rng (improvedState sq ags obj s)) + 1
    else if ((not_better + 1 : ℕ) : ℚ) = s.dead_iter then 1
    else
      completedIters rng sq ags obj fuel (not_better + 1)
        (newGeneration rng (pushHist (iterStep sq ags obj s))) + 1

/-- `UMDA.minimize`: reset the history, run the loop with the stagnation
counter starting at `0`, and assemble the result record
(`x`, `fun`, `nfev = len(history) * size_gen`). -/
def minimize (rng : RNG) (sq : ℚ → ℚ) (ags : List ℚ → List ℕ)
    (obj : List ℚ → ℚ) (s : UMDAState) : OptResult × UMDAState :=
  let sf := runLoop rng sq ags obj s.max_iter 0 { s with history := [] }
  ({ x := sf.best_ind_global
     fun_val := sf.best_mae_global
     nfev := sf.history.length * sf.size_gen }, sf)

/-- The `size_gen` property setter: assigns the backing field only. -/
def set_size_gen (s : UMDAState) (v : ℕ) : UMDAState := { s with size_gen := v }

/-- The `max_iter` property setter: assigns the backing field only. -/
def set_max_iter (s : UMDAState) (v : ℕ) : UMDAState := { s with max_iter := v }

/-- The `alpha` property setter: assigns the backing field only. -/
def set_alpha (s : UMDAState) (v : ℚ) : UMDAState := { s with alpha := v }

/-- Modelled from the spec’s words (not from the source), for comparison
with `truncationWith`: reduce population and evaluations, kept
index-aligned, to the `truncation_length` individuals with smallest fitness,
sorted ascending by fitness with ties broken by original index order — a
stable sort of the (evaluation, individual) pairs by evaluation, truncated. -/
def truncationSpec (s : UMDAState) : UMDAState :=
  let pairs := s.evaluations.zip s.generation
  let sorted := List.insertionSort (fun p q : ℚ × List ℚ => p.1 ≤ q.1) pairs
  { s with
    generation := (sorted.map Prod.snd).take s.truncation_length.toNat
    evaluations := (sorted.map Prod.fst).take s.truncation_length.toNat }

/-- Modelled from the spec’s words (not from the source), for comparison
with `runLoop`: the loop as the claim describes it, identical except that
the termination comparison of the integer stagnation counter against
`dead_iter = max_iter / 5` has floor behavior — the loop breaks when the
incremented counter equals `⌊dead_iter⌋`. -/
def runLoopFloor (rng : RNG) (sq : ℚ → ℚ) (ags : List ℚ → List ℕ)
    (obj : List ℚ → ℚ) : ℕ → ℕ → UMDAState → UMDAState
  | 0, _, s => s
  | fuel + 1, not_better, s =>
    if localBest sq ags obj s < s.best_mae_global then
      runLoopFloor rng sq ags obj fuel 0 (newGeneration rng (improvedState sq ags obj s))
    else if ((not_better + 1 : ℕ) : ℤ) = ⌊s.dead_iter⌋ then
      pushHist (iterStep sq ags obj s)
    else
      runLoopFloor rng sq ags obj fuel (not_better + 1)
        (newGeneration rng (pushHist (iterStep sq ags obj s)))

/-- A concrete sampler for witnesses: an all-zero matrix of the requested
shape. -/
def rng0 : RNG := fun _ _ r c => List.replicate r (List.replicate c 0)

/-- A concrete square-root stand-in for witnesses (its value is irrelevant
to every property proved below). -/
def sq0 : ℚ → ℚ := fun _ => 0

/-- A concrete argsort instance for witness runs whose evaluations are all
equal: the identity permutation, which is what `argsort` returns on a
constant array. -/
def idAgs : List ℚ → List ℕ := fun l => List.range l.length

/-- A constant objective function. -/
def objC (c : ℚ) : List ℚ → ℚ := fun _ => c

/-- A small concrete state for step-level witnesses: one variable, one
individual, `dead_iter = 6/5`. -/
def sW : UMDAState :=
  { size_gen := 1
    max_iter := 6
    alpha := 1
    n_variables := 1
    vector := { mu := [0], sigma := [1], lo := [0], hi := [1] }
    dead_iter := 6/5
    best_mae_global := 999999999999
    truncation_length := 1
    generation := [[0]]
    best_ind_global := BestInd.scalar 9999999
    history := []
    evaluations := [] }

/-- `sW` with an integer `dead_iter` already reached-at-next-increment and a
best-ever value the constant objective cannot beat. -/
def sB : UMDAState := { sW with dead_iter := 1, best_mae_global := 1 }

/-- `sW` with a 5-row truncated population, `truncation_length = 5` and
`size_gen = 3`. -/
def sC3 : UMDAState :=
  { sW with
    size_gen := 3
    truncation_length := 5
    generation := [[1], [2], [3], [4], [5]] }

/-- `sW` with a best-ever value the constant objective cannot beat. -/
def sD : UMDAState := { sW with best_mae_global := 1 }

/-- The literal state after one improving iteration of a run with
`maxiter = 5`, `size_gen = 1`, `n_variables = 1`, `alpha = 1`, the all-zero
sampler, and the constant objective `5`. -/
def S1a : UMDAState :=
  { size_gen := 1
    max_iter := 5
    alpha := 1
    n_variables := 1
    vector := { mu := [0], sigma := [3/10], lo := [0], hi := [2 * np_pi] }
    dead_iter := 1
    best_mae_global := 5
    truncation_length := 1
    generation := [[0]]
    best_ind_global := BestInd.point [0]
    history := [5]
    evaluations := [5] }

/-- As `S1a` but for `maxiter = 6` and the constant objective `1`. -/
def S1c : UMDAState :=
  { S1a with
    max_iter := 6
    dead_iter := 6/5
    best_mae_global := 1
    best_ind_global := BestInd.point [0]
    history := [1]
    evaluations := [1] }

/-- As `S1a` but for the constant objective `7`. -/
def S1b : UMDAState :=
  { S1a with
    best_mae_global := 7
    history := [7]
    evaluations := [7] }

/-- A concrete state for the truncation counterexample: 17 individuals with
all-equal fitness 0, `truncation_length = 17`. -/
def sC7 : UMDAState :=
  { size_gen := 17
    max_iter := 1
    alpha := 1
    n_variables := 1
    vector := { mu := [0], sigma := [1], lo := [0], hi := [1] }
    dead_iter := 1
    best_mae_global := 999999999999
    truncation_length := 17
    generation := [[0], [1], [2], [3], [4], [5], [6], [7], [8], [9], [10],
      [11], [12], [13], [14], [15], [16]]
    best_ind_global := BestInd.scalar 9999999
    history := []
    evaluations := [0, 0, 0, 0, 0, 0, 0, 0, 0, 0, 0, 0, 0, 0, 0, 0, 0] }

/-- A contract-compliant argsort output for a constant array of length 17
that is not the identity: `numpy`'s default (introsort) argsort reorders
equal elements for arrays longer than its 16-element insertion-sort cutoff,
so the index order among ties is not the original order. -/
def agsRev : List ℚ → List ℕ :=
  fun _ => [16, 15, 14, 13, 12, 11, 10, 9, 8, 7, 6, 5, 4, 3, 2, 1, 0]

/-- A two-individual state with distinct evaluations, for the truncation
witness. -/
def sE : UMDAState :=
  { sW with
    truncation_length := 2
    generation := [[10], [20]]
    evaluations := [5, 3] }

/-- The argsort output for the evaluations `[5, 3]` of `sE`. -/
def agsW : List ℚ → List ℕ := fun _ => [1, 0]

/-! ### Basic lemmas about the embedded operations -/

theorem pyInt_eq_floor {q : ℚ} (h : 0 ≤ q) : pyInt q = ⌊q⌋ := if_pos h

theorem le_foldl_min {b : ℚ} :
    ∀ {xs : List ℚ} {x : ℚ}, b ≤ x → (∀ y ∈ xs, b ≤ y) → b ≤ xs.foldl min x := by
  intro xs
  induction xs with
  | nil => intro x hx _; simpa using hx
  | cons a l ih =>
    intro x hx hall
    simp only [List.foldl_cons]
    exact ih (le_min hx (hall a (by simp))) (fun y hy => hall y (by simp [hy]))

theorem le_pyMin {b : ℚ} {l : List ℚ} (hne : l ≠ []) (hall : ∀ y ∈ l, b ≤ y) :
    b ≤ pyMin l := by
  cases l with
  | nil => exact absurd rfl hne
  | cons x xs =>
    exact le_foldl_min (hall x (by simp)) (fun y hy => hall y (by simp [hy]))

theorem iterStep_size_gen (sq : ℚ → ℚ) (ags : List ℚ → List ℕ) (obj : List ℚ → ℚ)
    (s : UMDAState) : (iterStep sq ags obj s).size_gen = s.size_gen := rfl

theorem iterStep_dead_iter (sq : ℚ → ℚ) (ags : List ℚ → List ℕ) (obj : List ℚ → ℚ)
    (s : UMDAState) : (iterStep sq ags obj s).dead_iter = s.dead_iter := rfl

theorem iterStep_best (sq : ℚ → ℚ) (ags : List ℚ → List ℕ) (obj : List ℚ → ℚ)
    (s : UMDAState) : (iterStep sq ags obj s).best_mae_global = s.best_mae_global := rfl

theorem iterStep_best_ind (sq : ℚ → ℚ) (ags : List ℚ → List ℕ) (obj : List ℚ → ℚ)
    (s : UMDAState) : (iterStep sq ags obj s).best_ind_global = s.best_ind_global := rfl

theorem iterStep_history (sq : ℚ → ℚ) (ags : List ℚ → List ℕ) (obj : List ℚ → ℚ)
    (s : UMDAState) : (iterStep sq ags obj s).history = s.history := rfl

theorem iterStep_truncation_length (sq : ℚ → ℚ) (ags : List ℚ → List ℕ)
    (obj : List ℚ → ℚ) (s : UMDAState) :
    (iterStep sq ags obj s).truncation_length = s.truncation_length := rfl

theorem pushHist_history (s : UMDAState) :
    (pushHist s).history = s.history ++ [pyMin s.evaluations] := rfl

theorem newGeneration_history (rng : RNG) (s : UMDAState) :
    (newGeneration rng s).history = s.history := rfl

theorem improvedState_best (sq : ℚ → ℚ) (ags : List ℚ → List ℕ) (obj : List ℚ → ℚ)
    (s : UMDAState) :
    (improvedState sq ags obj s).best_mae_global = localBest sq ags obj s := rfl

theorem improvedState_history (sq : ℚ → ℚ) (ags : List ℚ → List ℕ) (obj : List ℚ → ℚ)
    (s : UMDAState) :
    (improvedState sq ags obj s).history
      = s.history ++ [localBest sq ags obj s] := rfl

/-! ### Lemmas about the minimize loop -/

theorem runLoop_size_gen (rng : RNG) (sq : ℚ → ℚ) (ags : List ℚ → List ℕ)
    (obj : List ℚ → ℚ) : ∀ fuel nb s,
    (runLoop rng sq ags obj fuel nb s).size_gen = s.size_gen := by
  intro fuel
  induction fuel with
  | zero => intro nb s; rfl
  | succ n ih =>
    intro nb s
    by_cases h1 : localBest sq ags obj s < s.best_mae_global
    · simp only [runLoop, if_pos h1]; rw [ih]; rfl
    · by_cases h2 : ((nb + 1 : ℕ) : ℚ) = s.dead_iter
      · simp only [runLoop, if_neg h1, if_pos h2]; rfl
      · simp only [runLoop, if_neg h1, if_neg h2]; rw [ih]; rfl

theorem runLoop_dead_iter (rng : RNG) (sq : ℚ → ℚ) (ags : List ℚ → List ℕ)
    (obj : List ℚ → ℚ) : ∀ fuel nb s,
    (runLoop rng sq ags obj fuel nb s).dead_iter = s.dead_iter := by
  intro fuel
  induction fuel with
  | zero => intro nb s; rfl
  | succ n ih =>
    intro nb s
    by_cases h1 : localBest sq ags obj s < s.best_mae_global
    · simp only [runLoop, if_pos h1]; rw [ih]; rfl
    · by_cases h2 : ((nb + 1 : ℕ) : ℚ) = s.dead_iter
      · simp only [runLoop, if_neg h1, if_pos h2]; rfl
      · simp only [runLoop, if_neg h1, if_neg h2]; rw [ih]; rfl

theorem runLoop_length_nobreak (rng : RNG) (sq : ℚ → ℚ) (ags : List ℚ → List ℕ)
    (obj : List ℚ → ℚ) : ∀ fuel nb s, (∀ k : ℕ, (k : ℚ) ≠ s.dead_iter) →
    (runLoop rng sq ags obj fuel nb s).history.length = s.history.length + fuel := by
  intro fuel
  induction fuel with
  | zero => intro nb s _; rfl
  | succ n ih =>
    intro nb s h
    by_cases h1 : localBest sq ags obj s < s.best_mae_global
    · simp only [runLoop, if_pos h1]
      rw [ih 0 (newGeneration rng (improvedState sq ags obj s)) h]
      simp only [newGeneration_history, improvedState_history, List.length_append,
        List.length_singleton]
      omega
    · by_cases h2 : ((nb + 1 : ℕ) : ℚ) = s.dead_iter
      · exact absurd h2 (h (nb + 1))
      · simp only [runLoop, if_neg h1, if_neg h2]
        rw [ih (nb + 1) (newGeneration rng (pushHist (iterStep sq ags obj s))) h]
        simp only [newGeneration_history, pushHist_history, iterStep_history,
          List.length_append, List.length_singleton]
        omega

theorem runLoop_length_iters (rng : RNG) (sq : ℚ → ℚ) (ags : List ℚ → List ℕ)
    (obj : List ℚ → ℚ) : ∀ fuel nb s,
    (runLoop rng sq ags obj fuel nb s).history.length
      = s.history.length + completedIters rng sq ags obj fuel nb s := by
  intro fuel
  induction fuel with
  | zero => intro nb s; rfl
  | succ n ih =>
    intro nb s
    by_cases h1 : localBest sq ags obj s < s.best_mae_global
    · simp only [runLoop, completedIters, if_pos h1]
      rw [ih]
      simp only [newGeneration_history, improvedState_history, List.length_append,
        List.length_singleton]
      omega
    · by_cases h2 : ((nb + 1 : ℕ) : ℚ) = s.dead_iter
      · simp only [runLoop, completedIters, if_neg h1, if_pos h2]
        simp [pushHist_history, iterStep_history]
      · simp only [runLoop, completedIters, if_neg h1, if_neg h2]
        rw [ih]
        simp only [newGeneration_history, pushHist_history, iterStep_history,
          List.length_append, List.length_singleton]
        omega

theorem runLoop_best_le (rng : RNG) (sq : ℚ → ℚ) (ags : List ℚ → List ℕ)
    (obj : List ℚ → ℚ) : ∀ fuel nb s,
    (runLoop rng sq ags obj fuel nb s).best_mae_global ≤ s.best_mae_global := by
  intro fuel
  induction fuel with
  | zero => intro nb s; exact le_refl _
  | succ n ih =>
    intro nb s
    by_cases h1 : localBest sq ags obj s < s.best_mae_global
    · simp only [runLoop, if_pos h1]
      refine le_trans (le_trans (ih _ _) (le_of_eq ?_)) (le_of_lt h1)
      rfl
    · by_cases h2 : ((nb + 1 : ℕ) : ℚ) = s.dead_iter
      · simp only [runLoop, if_neg h1, if_pos h2]
        exact le_of_eq rfl
      · simp only [runLoop, if_neg h1, if_neg h2]
        exact le_trans (ih _ _) (le_of_eq rfl)

theorem iterStep_evaluations (sq : ℚ → ℚ) (ags : List ℚ → List ℕ)
    (obj : List ℚ → ℚ) (s : UMDAState) :
    (iterStep sq ags obj s).evaluations
      = ((ags (s.generation.map obj)).take s.truncation_length.toNat).map
          (fun i => (s.generation.map obj).getD i 0) := rfl

theorem newGeneration_length (rng : RNG) (s : UMDAState)
    (hr : (rng s.vector.mu s.vector.sigma s.size_gen s.n_variables).length = s.size_gen) :
    (newGeneration rng s).generation.length
      = min (pyInt (ELITE_FACTOR * s.generation.length)).toNat s.generation.length
        + s.size_gen := by
  simp [newGeneration, List.length_append, List.length_take, hr]

theorem localBest_sentinel (sq : ℚ → ℚ) (ags : List ℚ → List ℕ) (obj : List ℚ → ℚ)
    (ha : ∀ l : List ℚ, (ags l).Perm (List.range l.length))
    (hobj : ∀ x, (999999999999 : ℚ) ≤ obj x) (s : UMDAState)
    (htr : 1 ≤ s.truncation_length) (hgen : s.generation ≠ []) :
    (999999999999 : ℚ) ≤ localBest sq ags obj s := by
  have hlen : (ags (s.generation.map obj)).length = (s.generation.map obj).length :=
    ((ha _).length_eq).trans (List.length_range _)
  have hlpos : 0 < s.generation.length := List.length_pos.mpr hgen
  have hkpos : 0 < s.truncation_length.toNat := by omega
  unfold localBest
  rw [iterStep_evaluations]
  apply le_pyMin
  · intro hemp
    have h0 := congrArg List.length hemp
    rw [List.length_map, List.length_take, hlen, List.length_map, List.length_nil] at h0
    omega
  · intro y hy
    obtain ⟨i, hi, hfy⟩ := List.mem_map.mp hy
    have hmem : i ∈ ags (s.generation.map obj) := (List.take_sublist _ _).subset hi
    have hrange : i ∈ List.range (s.generation.map obj).length := (ha _).subset hmem
    have hilt : i < (s.generation.map obj).length := List.mem_range.mp hrange
    rw [List.getD_eq_getElem _ _ hilt] at hfy
    have hmem2 : (s.generation.map obj)[i] ∈ s.generation.map obj := List.getElem_mem hilt
    obtain ⟨x, _, hx⟩ := List.mem_map.mp hmem2
    rw [← hfy, ← hx]
    exact hobj x

theorem runLoop_sentinel (rng : RNG) (sq : ℚ → ℚ) (ags : List ℚ → List ℕ)
    (obj : List ℚ → ℚ)
    (ha : ∀ l : List ℚ, (ags l).Perm (List.range l.length))
    (hr : ∀ m si r c, (rng m si r c).length = r)
    (hobj : ∀ x, (999999999999 : ℚ) ≤ obj x) :
    ∀ fuel nb s, 1 ≤ s.truncation_length → s.generation ≠ [] → 1 ≤ s.size_gen →
      s.best_mae_global = 999999999999 →
      s.best_ind_global = BestInd.scalar 9999999 →
      (runLoop rng sq ags obj fuel nb s).best_mae_global = 999999999999 ∧
      (runLoop rng sq ags obj fuel nb s).best_ind_global = BestInd.scalar 9999999 := by
  intro fuel
  induction fuel with
  | zero => intro nb s _ _ _ hb hi; exact ⟨hb, hi⟩
  | succ n ih =>
    intro nb s htr hgen hsg hb hi
    have hnotlt : ¬ localBest sq ags obj s < s.best_mae_global := by
      rw [hb]
      exact not_lt.mpr (localBest_sentinel sq ags obj ha hobj s htr hgen)
    by_cases h2 : ((nb + 1 : ℕ) : ℚ) = s.dead_iter
    · simp only [runLoop, if_neg hnotlt, if_pos h2]
      exact ⟨hb, hi⟩
    · simp only [runLoop, if_neg hnotlt, if_neg h2]
      have hglen : (newGeneration rng (pushHist (iterStep sq ags obj s))).generation ≠ [] := by
        intro hemp
        have h0 := congrArg List.length hemp
        rw [newGeneration_length rng _ (hr _ _ _ _)] at h0
        simp only [List.length_nil] at h0
        have : (pushHist (iterStep sq ags obj s)).size_gen = s.size_gen := rfl
        omega
      exact ih (nb + 1) (newGeneration rng (pushHist (iterStep sq ags obj s)))
        htr hglen hsg hb hi

/-! ### Claim theorems -/

/-- C1: the claim says construction fails with a configuration error when
`floor(size_gen * alpha) == 0`.  The constructor performs no validation: at
`maxiter = 1`, `size_gen = 1`, `alpha = 1/10` it completes normally,
creating the full state with `truncation_length = int(1 * 0.1) = 0` and the
usual sentinel fields — no error is raised. -/
theorem umda_c1_no_construction_error :
    (initState rng0 1 1 1 (1/10)).truncation_length = 0
    ∧ (initState rng0 1 1 1 (1/10)).best_mae_global = 999999999999
    ∧ (initState rng0 1 1 1 (1/10)).history = [] := by
  refine ⟨?_, rfl, rfl⟩
  show pyInt (((1 : ℕ) : ℚ) * (1/10)) = 0
  norm_num [pyInt]

/-- C3: after a new-generation step on the (already truncated) population —
whose length equals `truncation_length` — the population is the first
`floor(ELITE_FACTOR * truncation_length)` rows of the current population,
preserved verbatim, followed by the `size_gen` freshly sampled rows, so its
length is the elite carryover plus `size_gen`, not `size_gen`. -/
theorem umda_c3_new_generation (rng : RNG) (s : UMDAState)
    (hlen : (s.generation.length : ℤ) = s.truncation_length)
    (hr : (rng s.vector.mu s.vector.sigma s.size_gen s.n_variables).length = s.size_gen) :
    (newGeneration rng s).generation
      = s.generation.take (⌊ELITE_FACTOR * (s.truncation_length : ℚ)⌋).toNat
        ++ rng s.vector.mu s.vector.sigma s.size_gen s.n_variables
    ∧ (newGeneration rng s).generation.length
      = (⌊ELITE_FACTOR * (s.truncation_length : ℚ)⌋).toNat + s.size_gen := by
  have hq : ((s.truncation_length : ℤ) : ℚ) = (s.generation.length : ℚ) := by
    exact_mod_cast congrArg (fun z : ℤ => (z : ℚ)) hlen.symm
  have h0 : (0 : ℚ) ≤ ELITE_FACTOR * (s.generation.length : ℚ) := by
    have : (0 : ℚ) ≤ (s.generation.length : ℚ) := by positivity
    rw [ELITE_FACTOR]
    nlinarith
  have heq : (pyInt (ELITE_FACTOR * (s.generation.length : ℚ))).toNat
      = (⌊ELITE_FACTOR * (s.truncation_length : ℚ)⌋).toNat := by
    rw [hq, pyInt_eq_floor h0]
  have hcount : (⌊ELITE_FACTOR * (s.truncation_length : ℚ)⌋).toNat ≤ s.generation.length := by
    have h1 : ELITE_FACTOR * (s.truncation_length : ℚ) ≤ ((s.generation.length : ℤ) : ℚ) := by
      rw [hq]
      have h2 : (0 : ℚ) ≤ (s.generation.length : ℚ) := by positivity
      push_cast
      rw [ELITE_FACTOR]
      nlinarith
    have h2 : ⌊ELITE_FACTOR * (s.truncation_length : ℚ)⌋ ≤ (s.generation.length : ℤ) := by
      have := Int.floor_le_floor h1
      simpa using this
    omega
  constructor
  · show s.generation.take (pyInt (ELITE_FACTOR * (s.generation.length : ℚ))).toNat
        ++ rng s.vector.mu s.vector.sigma s.size_gen s.n_variables = _
    rw [heq]
  · show (s.generation.take (pyInt (ELITE_FACTOR * (s.generation.length : ℚ))).toNat
        ++ rng s.vector.mu s.vector.sigma s.size_gen s.n_variables).length = _
    rw [heq, List.length_append, List.length_take, hr, min_eq_left hcount]

/-- C3 witness: a concrete truncated population of length 5 with
`truncation_length = 5` and `size_gen = 3`: the new population is the 2
elite rows followed by the 3 fresh rows, total length `2 + 3`. -/
theorem umda_c3_witness :
    ((sC3.generation.length : ℤ) = sC3.truncation_length
    ∧ (rng0 sC3.vector.mu sC3.vector.sigma sC3.size_gen sC3.n_variables).length
        = sC3.size_gen)
    ∧ (newGeneration rng0 sC3).generation.length
      = (⌊ELITE_FACTOR * (sC3.truncation_length : ℚ)⌋).toNat + sC3.size_gen := by
  have h1 : ((sC3.generation.length : ℤ) = sC3.truncation_length) := by
    norm_num [sC3, sW]
  have h2 : (rng0 sC3.vector.mu sC3.vector.sigma sC3.size_gen sC3.n_variables).length
      = sC3.size_gen := by
    norm_num [rng0, sC3, sW]
  exact ⟨⟨h1, h2⟩, (umda_c3_new_generation rng0 sC3 h1 h2).2⟩

/-- C4: the evaluation count of the result record equals the number of
completed loop iterations times `size_gen` (the history gains exactly one
entry per completed iteration, and `nfev = len(history) * size_gen`),
independently of how many objective calls were actually made. -/
theorem umda_c4_nfev (rng : RNG) (sq : ℚ → ℚ) (ags : List ℚ → List ℕ)
    (obj : List ℚ → ℚ) (s : UMDAState) :
    (minimize rng sq ags obj s).1.nfev
      = completedIters rng sq ags obj s.max_iter 0 { s with history := [] } * s.size_gen
    ∧ (minimize rng sq ags obj s).2.history.length
      = completedIters rng sq ags obj s.max_iter 0 { s with history := [] } := by
  have h := runLoop_length_iters rng sq ags obj s.max_iter 0 { s with history := [] }
  have hlen : (runLoop rng sq ags obj s.max_iter 0 { s with history := [] }).history.length
      = completedIters rng sq ags obj s.max_iter 0 { s with history := [] } := by
    rw [h]; simp
  constructor
  · show (runLoop rng sq ags obj s.max_iter 0 { s with history := [] }).history.length
        * (runLoop rng sq ags obj s.max_iter 0 { s with history := [] }).size_gen = _
    rw [hlen, runLoop_size_gen]
  · exact hlen

/-- C5: after every re-fit step the fitted standard deviation is at least
`STD_BOUND = 0.3` in every dimension, and any dimension whose fitted value
is below the bound is clamped to exactly the bound. -/
theorem umda_c5_std_bound (sq : ℚ → ℚ) (s : UMDAState) :
    (∀ x ∈ (updateVector sq s).vector.sigma, STD_BOUND ≤ x)
    ∧ ∀ i, i < s.n_variables → fitStd sq (col s.generation i) < STD_BOUND →
        ((updateVector sq s).vector.sigma).getD i 0 = STD_BOUND := by
  constructor
  · intro x hx
    simp only [updateVector] at hx
    obtain ⟨i, _, hfx⟩ := List.mem_map.mp hx
    rw [← hfx]
    split_ifs with h
    · exact le_refl _
    · exact le_of_not_lt h
  · intro i hi hlt
    have hlen : i < ((List.range s.n_variables).map (fun i =>
        let sd := fitStd sq (col s.generation i)
        if sd < STD_BOUND then STD_BOUND else sd)).length := by
      simpa using hi
    show ((List.range s.n_variables).map (fun i =>
        let sd := fitStd sq (col s.generation i)
        if sd < STD_BOUND then STD_BOUND else sd)).getD i 0 = STD_BOUND
    rw [List.getD_eq_getElem _ _ hlen, List.getElem_map]
    dsimp only
    rw [List.getElem_range, if_pos hlt]

/-- C5 witness: a degenerate all-equal column fits with standard deviation
`sq0 0 = 0 < 0.3` and is clamped to exactly `0.3`. -/
theorem umda_c5_witness :
    ((0 : ℕ) < sW.n_variables ∧ fitStd sq0 (col sW.generation 0) < STD_BOUND)
    ∧ ((updateVector sq0 sW).vector.sigma).getD 0 0 = STD_BOUND := by
  have h1 : (0 : ℕ) < sW.n_variables := by norm_num [sW]
  have h2 : fitStd sq0 (col sW.generation 0) < STD_BOUND := by
    norm_num [fitStd, fitVar, fitMean, col, sq0, sW, STD_BOUND]
  exact ⟨⟨h1, h2⟩, (umda_c5_std_bound sq0 sW).2 0 h1 h2⟩

/-- C6: the best-ever fitness never increases across any number of loop
iterations, and over a single iteration it is replaced by the iteration's
best exactly when that is strictly smaller, and left unchanged otherwise. -/
theorem umda_c6_best_monotone (rng : RNG) (sq : ℚ → ℚ) (ags : List ℚ → List ℕ)
    (obj : List ℚ → ℚ) (fuel nb : ℕ) (s : UMDAState) :
    (runLoop rng sq ags obj fuel nb s).best_mae_global ≤ s.best_mae_global
    ∧ (localBest sq ags obj s < s.best_mae_global →
        (runLoop rng sq ags obj 1 nb s).best_mae_global = localBest sq ags obj s)
    ∧ (¬ localBest sq ags obj s < s.best_mae_global →
        (runLoop rng sq ags obj 1 nb s).best_mae_global = s.best_mae_global) := by
  refine ⟨runLoop_best_le rng sq ags obj fuel nb s, ?_, ?_⟩
  · intro h
    rw [show (1 : ℕ) = 0 + 1 from rfl]
    simp only [runLoop, if_pos h]
    rfl
  · intro h
    rw [show (1 : ℕ) = 0 + 1 from rfl]
    by_cases h2 : ((nb + 1 : ℕ) : ℚ) = s.dead_iter
    · simp only [runLoop, if_neg h, if_pos h2]
      rfl
    · simp only [runLoop, if_neg h, if_neg h2]
      rfl

/-- C6 witness: a strictly improving iteration on a concrete state replaces
the best-ever value by the iteration's best. -/
theorem umda_c6_witness :
    localBest sq0 idAgs (objC 1) sW < sW.best_mae_global
    ∧ (runLoop rng0 sq0 idAgs (objC 1) 1 0 sW).best_mae_global
        = localBest sq0 idAgs (objC 1) sW := by
  have h : localBest sq0 idAgs (objC 1) sW < sW.best_mae_global := by
    norm_num [localBest, iterStep, checkGeneration, truncationWith, updateVector,
      pyMin, sW, idAgs, objC, sq0, fitMean, fitVar, fitStd, col, STD_BOUND,
      List.range_succ]
  exact ⟨h, (umda_c6_best_monotone rng0 sq0 idAgs (objC 1) 1 0 sW).2.1 h⟩

/-- C2 counterexample: with `maxiter = 6` (so `dead_iter = 6/5`), one
variable, one individual and a constant objective, the code's loop never
breaks early (the integer counter never equals `6/5`) and completes all 6
iterations, while the loop of the claim — floor behavior at the comparison,
breaking when the counter equals `⌊6/5⌋ = 1` — stops after 2 iterations. -/
theorem umda_c2_counterexample :
    (minimize rng0 sq0 idAgs (objC 1) (initState rng0 6 1 1 1)).2.history.length = 6
    ∧ (runLoopFloor rng0 sq0 idAgs (objC 1) 6 0
        { initState rng0 6 1 1 1 with history := [] }).history.length = 2
    ∧ (6 : ℕ) ≠ 2 := by
  have hdead : ∀ k : ℕ,
      (k : ℚ) ≠ ({ initState rng0 6 1 1 1 with history := [] } : UMDAState).dead_iter := by
    intro k hk
    have hk6 : (k : ℚ) = 6/5 := by
      rw [hk]
      norm_num [initState]
    have h5 : ((5 * k : ℕ) : ℚ) = 6 := by push_cast; linarith
    have h6 : (5 * k : ℕ) = 6 := by exact_mod_cast h5
    omega
  refine ⟨?_, ?_, by norm_num⟩
  · show (runLoop rng0 sq0 idAgs (objC 1) (6 : ℕ) 0
        { initState rng0 6 1 1 1 with history := [] }).history.length = 6
    rw [runLoop_length_nobreak rng0 sq0 idAgs (objC 1) 6 0
      { initState rng0 6 1 1 1 with history := [] } hdead]
    simp
  · have himp : localBest sq0 idAgs (objC 1) { initState rng0 6 1 1 1 with history := [] }
        < ({ initState rng0 6 1 1 1 with history := [] } : UMDAState).best_mae_global := by
      norm_num [localBest, iterStep, checkGeneration, truncationWith, updateVector,
        pyMin, pyInt, initState, initialization, rng0, sq0, idAgs, objC,
        fitMean, fitVar, fitStd, col, STD_BOUND, List.range_succ]
    have hS1 : newGeneration rng0 (improvedState sq0 idAgs (objC 1)
        { initState rng0 6 1 1 1 with history := [] }) = S1c := by
      norm_num [newGeneration, improvedState, localBest, iterStep, checkGeneration,
        truncationWith, updateVector, pushHist, pyMin, pyInt, firstIdx, initState,
        initialization, rng0, sq0, idAgs, objC, fitMean, fitVar, fitStd, col,
        ELITE_FACTOR, STD_BOUND, List.range_succ, S1c, S1a]
    have hni : ¬ localBest sq0 idAgs (objC 1) S1c < S1c.best_mae_global := by
      norm_num [localBest, iterStep, checkGeneration, truncationWith, updateVector,
        pyMin, S1c, S1a, idAgs, objC, sq0, fitMean, fitVar, fitStd, col, STD_BOUND,
        List.range_succ]
    have hfl : ((0 + 1 : ℕ) : ℤ) = ⌊S1c.dead_iter⌋ := by
      norm_num [S1c, S1a]
    rw [show (6 : ℕ) = 5 + 1 from rfl, runLoopFloor, if_pos himp, hS1,
      show (5 : ℕ) = 4 + 1 from rfl, runLoopFloor, if_neg hni, if_pos hfl]
    norm_num [pushHist, iterStep, checkGeneration, truncationWith, updateVector,
      pyMin, S1c, S1a, idAgs, objC, sq0, fitMean, fitVar, fitStd, col, STD_BOUND,
      List.range_succ]

/-- C2 amended: the stagnation counter resets to 0 on any strictly improving
iteration and is incremented by exactly 1 otherwise; the loop breaks, at the
earliest opportunity, exactly when the incremented counter equals
`dead_iter = max_iter / 5` under exact rational equality.  In particular,
when `max_iter / 5` is not an integer the natural-number counter never
equals it, no early termination occurs, and the loop always completes the
full `max_iter` iterations. -/
theorem umda_c2_stagnation (rng : RNG) (sq : ℚ → ℚ) (ags : List ℚ → List ℕ)
    (obj : List ℚ → ℚ) (fuel nb : ℕ) (s : UMDAState) :
    ((∀ k : ℕ, (k : ℚ) ≠ s.dead_iter) →
      (runLoop rng sq ags obj fuel nb s).history.length = s.history.length + fuel)
    ∧ (localBest sq ags obj s < s.best_mae_global →
        runLoop rng sq ags obj (fuel + 1) nb s
          = runLoop rng sq ags obj fuel 0 (newGeneration rng (improvedState sq ags obj s)))
    ∧ (¬ localBest sq ags obj s < s.best_mae_global → ((nb + 1 : ℕ) : ℚ) = s.dead_iter →
        runLoop rng sq ags obj (fuel + 1) nb s = pushHist (iterStep sq ags obj s))
    ∧ (¬ localBest sq ags obj s < s.best_mae_global → ((nb + 1 : ℕ) : ℚ) ≠ s.dead_iter →
        runLoop rng sq ags obj (fuel + 1) nb s
          = runLoop rng sq ags obj fuel (nb + 1)
              (newGeneration rng (pushHist (iterStep sq ags obj s)))) := by
  refine ⟨runLoop_length_nobreak rng sq ags obj fuel nb s, ?_, ?_, ?_⟩
  · intro h
    simp only [runLoop, if_pos h]
  · intro h1 h2
    simp only [runLoop, if_neg h1, if_pos h2]
  · intro h1 h2
    simp only [runLoop, if_neg h1, if_neg h2]

/-- C2 witness: concrete instances of all four components of the amended
stagnation property. -/
theorem umda_c2_stagnation_witness :
    ((∀ k : ℕ, (k : ℚ) ≠ sW.dead_iter)
      ∧ (runLoop rng0 sq0 idAgs (objC 1) 2 0 sW).history.length = sW.history.length + 2)
    ∧ (localBest sq0 idAgs (objC 1) sW < sW.best_mae_global
      ∧ runLoop rng0 sq0 idAgs (objC 1) (1 + 1) 0 sW
          = runLoop rng0 sq0 idAgs (objC 1) 1 0
              (newGeneration rng0 (improvedState sq0 idAgs (objC 1) sW)))
    ∧ (¬ localBest sq0 idAgs (objC 1) sB < sB.best_mae_global
      ∧ ((0 + 1 : ℕ) : ℚ) = sB.dead_iter
      ∧ runLoop rng0 sq0 idAgs (objC 1) (1 + 1) 0 sB
          = pushHist (iterStep sq0 idAgs (objC 1) sB))
    ∧ (¬ localBest sq0 idAgs (objC 1) sD < sD.best_mae_global
      ∧ ((0 + 1 : ℕ) : ℚ) ≠ sD.dead_iter
      ∧ runLoop rng0 sq0 idAgs (objC 1) (1 + 1) 0 sD
          = runLoop rng0 sq0 idAgs (objC 1) 1 1
              (newGeneration rng0 (pushHist (iterStep sq0 idAgs (objC 1) sD)))) := by
  have hA : ∀ k : ℕ, (k : ℚ) ≠ sW.dead_iter := by
    intro k hk
    have hk6 : (k : ℚ) = 6/5 := by rw [hk]; norm_num [sW]
    have h5 : ((5 * k : ℕ) : ℚ) = 6 := by push_cast; linarith
    have h6 : (5 * k : ℕ) = 6 := by exact_mod_cast h5
    omega
  have hB : localBest sq0 idAgs (objC 1) sW < sW.best_mae_global := by
    norm_num [localBest, iterStep, checkGeneration, truncationWith, updateVector,
      pyMin, sW, idAgs, objC, sq0, fitMean, fitVar, fitStd, col, STD_BOUND,
      List.range_succ]
  have hC1 : ¬ localBest sq0 idAgs (objC 1) sB < sB.best_mae_global := by
    norm_num [localBest, iterStep, checkGeneration, truncationWith, updateVector,
      pyMin, sB, sW, idAgs, objC, sq0, fitMean, fitVar, fitStd, col, STD_BOUND,
      List.range_succ]
  have hC2 : ((0 + 1 : ℕ) : ℚ) = sB.dead_iter := by norm_num [sB, sW]
  have hD1 : ¬ localBest sq0 idAgs (objC 1) sD < sD.best_mae_global := by
    norm_num [localBest, iterStep, checkGeneration, truncationWith, updateVector,
      pyMin, sD, sW, idAgs, objC, sq0, fitMean, fitVar, fitStd, col, STD_BOUND,
      List.range_succ]
  have hD2 : ((0 + 1 : ℕ) : ℚ) ≠ sD.dead_iter := by norm_num [sD, sW]
  exact ⟨⟨hA, (umda_c2_stagnation rng0 sq0 idAgs (objC 1) 2 0 sW).1 hA⟩,
    ⟨hB, (umda_c2_stagnation rng0 sq0 idAgs (objC 1) 1 0 sW).2.1 hB⟩,
    ⟨hC1, hC2, (umda_c2_stagnation rng0 sq0 idAgs (objC 1) 1 0 sB).2.2.1 hC1 hC2⟩,
    ⟨hD1, hD2, (umda_c2_stagnation rng0 sq0 idAgs (objC 1) 1 0 sD).2.2.2 hD1 hD2⟩⟩

/-- C8 amended: each `minimize` call resets only the history (the call on a
state is identical to the call on the same state with any other history),
while the fitted model, the population and the best-ever record are carried
over from the previous run and resumed: the returned best value can never
exceed the best-ever value already stored in the instance.  The model equals
the canonical prior only at construction. -/
theorem umda_c8_reuse (rng : RNG) (sq : ℚ → ℚ) (ags : List ℚ → List ℕ)
    (obj : List ℚ → ℚ) (s : UMDAState) (h' : List ℚ) :
    minimize rng sq ags obj s = minimize rng sq ags obj { s with history := h' }
    ∧ (minimize rng sq ags obj s).1.fun_val ≤ s.best_mae_global
    ∧ (minimize rng sq ags obj s).2.best_mae_global ≤ s.best_mae_global := by
  refine ⟨rfl, ?_, ?_⟩
  · show (runLoop rng sq ags obj s.max_iter 0 { s with history := [] }).best_mae_global
        ≤ s.best_mae_global
    exact runLoop_best_le rng sq ags obj s.max_iter 0 { s with history := [] }
  · show (runLoop rng sq ags obj s.max_iter 0 { s with history := [] }).best_mae_global
        ≤ s.best_mae_global
    exact runLoop_best_le rng sq ags obj s.max_iter 0 { s with history := [] }

/-- C8 counterexample: run a fresh instance (`maxiter = 5`, `size_gen = 1`,
`n_variables = 1`, `alpha = 1`, all-zero sampler) on the constant objective
`5`, then call `minimize` again with the constant objective `7`.  The second
call returns `5` — the best-ever record resumed from the first run — while a
fresh run on the same objective returns `7`; and the model entering the
second call has standard deviation `0.3` (the previously fitted value), not
the canonical prior `0.5`. -/
theorem umda_c8_counterexample :
    (minimize rng0 sq0 idAgs (objC 7)
        (minimize rng0 sq0 idAgs (objC 5) (initState rng0 5 1 1 1)).2).1.fun_val = 5
    ∧ (minimize rng0 sq0 idAgs (objC 7) (initState rng0 5 1 1 1)).1.fun_val = 7
    ∧ ((minimize rng0 sq0 idAgs (objC 5) (initState rng0 5 1 1 1)).2).vector.sigma = [3/10]
    ∧ (initState rng0 5 1 1 1).vector.sigma = [1/2]
    ∧ ¬ ((5 : ℚ) = 7) := by
  have himp5 : localBest sq0 idAgs (objC 5) { initState rng0 5 1 1 1 with history := [] }
      < ({ initState rng0 5 1 1 1 with history := [] } : UMDAState).best_mae_global := by
    norm_num [localBest, iterStep, checkGeneration, truncationWith, updateVector,
      pyMin, pyInt, initState, initialization, rng0, sq0, idAgs, objC,
      fitMean, fitVar, fitStd, col, STD_BOUND, List.range_succ]
  have hS1a : newGeneration rng0 (improvedState sq0 idAgs (objC 5)
      { initState rng0 5 1 1 1 with history := [] }) = S1a := by
    norm_num [newGeneration, improvedState, localBest, iterStep, checkGeneration,
      truncationWith, updateVector, pushHist, pyMin, pyInt, firstIdx, initState,
      initialization, rng0, sq0, idAgs, objC, fitMean, fitVar, fitStd, col,
      ELITE_FACTOR, STD_BOUND, List.range_succ, S1a]
  have hni5 : ¬ localBest sq0 idAgs (objC 5) S1a < S1a.best_mae_global := by
    norm_num [localBest, iterStep, checkGeneration, truncationWith, updateVector,
      pyMin, S1a, idAgs, objC, sq0, fitMean, fitVar, fitStd, col, STD_BOUND,
      List.range_succ]
  have heq5 : ((0 + 1 : ℕ) : ℚ) = S1a.dead_iter := by norm_num [S1a]
  have hA2 : (minimize rng0 sq0 idAgs (objC 5) (initState rng0 5 1 1 1)).2
      = { S1a with history := [5, 5] } := by
    show runLoop rng0 sq0 idAgs (objC 5) (5 : ℕ) 0
        { initState rng0 5 1 1 1 with history := [] } = _
    rw [show (5 : ℕ) = 4 + 1 from rfl, runLoop, if_pos himp5, hS1a,
      show (4 : ℕ) = 3 + 1 from rfl, runLoop, if_neg hni5, if_pos heq5]
    norm_num [pushHist, iterStep, checkGeneration, truncationWith, updateVector,
      pyMin, pyInt, S1a, idAgs, objC, sq0, fitMean, fitVar, fitStd, col, STD_BOUND,
      List.range_succ]
  refine ⟨?_, ?_, ?_, ?_, by norm_num⟩
  · rw [hA2]
    have hni7 : ¬ localBest sq0 idAgs (objC 7)
        { S1a with history := ([] : List ℚ) }
        < ({ S1a with history := ([] : List ℚ) } : UMDAState).best_mae_global := by
      norm_num [localBest, iterStep, checkGeneration, truncationWith, updateVector,
        pyMin, S1a, idAgs, objC, sq0, fitMean, fitVar, fitStd, col, STD_BOUND,
        List.range_succ]
    have heq7 : ((0 + 1 : ℕ) : ℚ)
        = ({ S1a with history := ([] : List ℚ) } : UMDAState).dead_iter := by
      norm_num [S1a]
    show (runLoop rng0 sq0 idAgs (objC 7) (5 : ℕ) 0
        { S1a with history := ([] : List ℚ) }).best_mae_global = 5
    rw [show (5 : ℕ) = 4 + 1 from rfl, runLoop, if_neg hni7, if_pos heq7]
    norm_num [pushHist, iterStep, checkGeneration, truncationWith, updateVector,
      pyMin, S1a, idAgs, objC, sq0, fitMean, fitVar, fitStd, col, STD_BOUND,
      List.range_succ]
  · have himp7 : localBest sq0 idAgs (objC 7) { initState rng0 5 1 1 1 with history := [] }
        < ({ initState rng0 5 1 1 1 with history := [] } : UMDAState).best_mae_global := by
      norm_num [localBest, iterStep, checkGeneration, truncationWith, updateVector,
        pyMin, pyInt, initState, initialization, rng0, sq0, idAgs, objC,
        fitMean, fitVar, fitStd, col, STD_BOUND, List.range_succ]
    have hS1b : newGeneration rng0 (improvedState sq0 idAgs (objC 7)
        { initState rng0 5 1 1 1 with history := [] }) = S1b := by
      norm_num [newGeneration, improvedState, localBest, iterStep, checkGeneration,
        truncationWith, updateVector, pushHist, pyMin, pyInt, firstIdx, initState,
        initialization, rng0, sq0, idAgs, objC, fitMean, fitVar, fitStd, col,
        ELITE_FACTOR, STD_BOUND, List.range_succ, S1b, S1a]
    have hni7b : ¬ localBest sq0 idAgs (objC 7) S1b < S1b.best_mae_global := by
      norm_num [localBest, iterStep, checkGeneration, truncationWith, updateVector,
        pyMin, S1b, S1a, idAgs, objC, sq0, fitMean, fitVar, fitStd, col, STD_BOUND,
        List.range_succ]
    have heq7b : ((0 + 1 : ℕ) : ℚ) = S1b.dead_iter := by norm_num [S1b, S1a]
    show (runLoop rng0 sq0 idAgs (objC 7) (5 : ℕ) 0
        { initState rng0 5 1 1 1 with history := [] }).best_mae_global = 7
    rw [show (5 : ℕ) = 4 + 1 from rfl, runLoop, if_pos himp7, hS1b,
      show (4 : ℕ) = 3 + 1 from rfl, runLoop, if_neg hni7b, if_pos heq7b]
    norm_num [pushHist, iterStep, checkGeneration, truncationWith, updateVector,
      pyMin, S1b, S1a, idAgs, objC, sq0, fitMean, fitVar, fitStd, col, STD_BOUND,
      List.range_succ]
  · rw [hA2]
    norm_num [S1a]
  · norm_num [initState, initialization]

/-- C9: the property setters only assign their backing fields and recompute
nothing: after setting `max_iter := w`, `size_gen := v`, `alpha := b` on a
constructed instance, `truncation_length` still equals
`int(original size_gen * original alpha)` and `dead_iter` still equals
`original max_iter / 5` — so truncation still slices with the constructed
length and the stagnation comparison still uses the constructed threshold —
while the loop bound field reads `w` and a new-generation step samples
exactly `v` fresh rows. -/
theorem umda_c9_setters (rng : RNG) (m sg n v w : ℕ) (a b : ℚ) (s1 : UMDAState)
    (hs : s1 = set_alpha (set_size_gen (set_max_iter (initState rng m sg n a) w) v) b) :
    s1.truncation_length = pyInt ((sg : ℚ) * a)
    ∧ s1.dead_iter = (m : ℚ) / 5
    ∧ s1.size_gen = v ∧ s1.max_iter = w ∧ s1.alpha = b
    ∧ (∀ ags, (truncationWith ags s1).evaluations
        = ((ags s1.evaluations).take (pyInt ((sg : ℚ) * a)).toNat).map
            (fun i => s1.evaluations.getD i 0))
    ∧ (∀ rng2 : RNG,
        (rng2 s1.vector.mu s1.vector.sigma s1.size_gen s1.n_variables).length = s1.size_gen →
        (newGeneration rng2 s1).generation.length
          = min (pyInt (ELITE_FACTOR * (s1.generation.length : ℚ))).toNat
              s1.generation.length + v) := by
  subst hs
  refine ⟨rfl, rfl, rfl, rfl, rfl, fun ags => rfl, fun rng2 hr => ?_⟩
  rw [newGeneration_length rng2 _ hr]
  rfl

/-- C9 witness: constructed with `maxiter = 5`, `size_gen = 2`, `alpha = 1`,
then reconfigured to `max_iter = 7`, `size_gen = 3`, `alpha = 1/2`: a
new-generation step samples 3 fresh rows while the elite slice still uses
the generation length. -/
theorem umda_c9_witness :
    (rng0 (set_alpha (set_size_gen (set_max_iter (initState rng0 5 2 1 1) 7) 3) (1/2)).vector.mu
        (set_alpha (set_size_gen (set_max_iter (initState rng0 5 2 1 1) 7) 3) (1/2)).vector.sigma
        (set_alpha (set_size_gen (set_max_iter (initState rng0 5 2 1 1) 7) 3) (1/2)).size_gen
        (set_alpha (set_size_gen (set_max_iter (initState rng0 5 2 1 1) 7) 3) (1/2)).n_variables).length
      = (set_alpha (set_size_gen (set_max_iter (initState rng0 5 2 1 1) 7) 3) (1/2)).size_gen
    ∧ (newGeneration rng0
        (set_alpha (set_size_gen (set_max_iter (initState rng0 5 2 1 1) 7) 3) (1/2))).generation.length
      = min (pyInt (ELITE_FACTOR
          * ((set_alpha (set_size_gen (set_max_iter (initState rng0 5 2 1 1) 7) 3) (1/2)).generation.length : ℚ))).toNat
          (set_alpha (set_size_gen (set_max_iter (initState rng0 5 2 1 1) 7) 3) (1/2)).generation.length
        + 3 := by
  have hr : (rng0 (set_alpha (set_size_gen (set_max_iter (initState rng0 5 2 1 1) 7) 3) (1/2)).vector.mu
        (set_alpha (set_size_gen (set_max_iter (initState rng0 5 2 1 1) 7) 3) (1/2)).vector.sigma
        (set_alpha (set_size_gen (set_max_iter (initState rng0 5 2 1 1) 7) 3) (1/2)).size_gen
        (set_alpha (set_size_gen (set_max_iter (initState rng0 5 2 1 1) 7) 3) (1/2)).n_variables).length
      = (set_alpha (set_size_gen (set_max_iter (initState rng0 5 2 1 1) 7) 3) (1/2)).size_gen := by
    norm_num [rng0, set_alpha, set_size_gen, set_max_iter, initState, initialization]
  exact ⟨hr, (umda_c9_setters rng0 5 2 1 3 7 1 (1/2) _ rfl).2.2.2.2.2.2 rng0 hr⟩

/-- C10: on a freshly constructed instance, if every objective value is at
or above the fitness sentinel `999999999999`, then no iteration improves on
the sentinel, and `minimize` returns `fun = 999999999999` together with
`x = 9999999` — the scalar initialization sentinel, not an n-dimensional
point. -/
theorem umda_c10_sentinel (rng : RNG) (sq : ℚ → ℚ) (ags : List ℚ → List ℕ)
    (obj : List ℚ → ℚ) (m sg n : ℕ) (a : ℚ)
    (ha : ∀ l : List ℚ, (ags l).Perm (List.range l.length))
    (hr : ∀ mu si r c, (rng mu si r c).length = r)
    (hobj : ∀ x, (999999999999 : ℚ) ≤ obj x)
    (hsg : 1 ≤ sg)
    (htr : 1 ≤ (initState rng m sg n a).truncation_length) :
    (minimize rng sq ags obj (initState rng m sg n a)).1.fun_val = 999999999999
    ∧ (minimize rng sq ags obj (initState rng m sg n a)).1.x = BestInd.scalar 9999999 := by
  have hgen : ({ initState rng m sg n a with history := [] } : UMDAState).generation ≠ [] := by
    intro hemp
    have h0 := congrArg List.length hemp
    rw [show ({ initState rng m sg n a with history := [] } : UMDAState).generation
        = rng (initialization n).mu (initialization n).sigma sg n from rfl] at h0
    rw [hr _ _ _ _] at h0
    simp at h0
    omega
  have h := runLoop_sentinel rng sq ags obj ha hr hobj m 0
    { initState rng m sg n a with history := [] } htr hgen hsg rfl rfl
  constructor
  · show (runLoop rng sq ags obj m 0
        { initState rng m sg n a with history := [] }).best_mae_global = _
    exact h.1
  · show (runLoop rng sq ags obj m 0
        { initState rng m sg n a with history := [] }).best_ind_global = _
    exact h.2

/-- C10 witness: the constant objective equal to the sentinel on a fresh
one-variable instance returns the sentinel pair. -/
theorem umda_c10_witness :
    ((∀ l : List ℚ, (idAgs l).Perm (List.range l.length))
      ∧ (∀ mu si r c, (rng0 mu si r c).length = r)
      ∧ (∀ x, (999999999999 : ℚ) ≤ objC 999999999999 x)
      ∧ (1 : ℕ) ≤ 1
      ∧ 1 ≤ (initState rng0 1 1 1 1).truncation_length)
    ∧ (minimize rng0 sq0 idAgs (objC 999999999999) (initState rng0 1 1 1 1)).1.fun_val
        = 999999999999
    ∧ (minimize rng0 sq0 idAgs (objC 999999999999) (initState rng0 1 1 1 1)).1.x
        = BestInd.scalar 9999999 := by
  have ha : ∀ l : List ℚ, (idAgs l).Perm (List.range l.length) := fun l => List.Perm.refl _
  have hr : ∀ mu si r c, (rng0 mu si r c).length = r := by
    intro mu si r c
    simp [rng0]
  have hobj : ∀ x, (999999999999 : ℚ) ≤ objC 999999999999 x := fun _ => le_refl _
  have htr : 1 ≤ (initState rng0 1 1 1 1).truncation_length := by
    norm_num [initState, pyInt]
  exact ⟨⟨ha, hr, hobj, le_refl 1, htr⟩,
    umda_c10_sentinel rng0 sq0 idAgs (objC 999999999999) 1 1 1 1 ha hr hobj
      (le_refl 1) htr⟩

theorem map_getD_range (l : List ℚ) :
    (List.range l.length).map (fun i => l.getD i 0) = l := by
  apply List.ext_getElem
  · rw [List.length_map, List.length_range]
  · intro i h1 h2
    rw [List.getElem_map, List.getElem_range]
    exact List.getD_eq_getElem l 0 h2

/-- C7 amended: whenever the external argsort returns indices that are a
permutation of the index range and order the evaluations ascending (the
documented contract of `ndarray.argsort`, with no constraint on the order
among equal values), truncation reduces the evaluations to exactly the first
`truncation_length` entries of the sorted evaluations, sorted ascending,
with the generation index-aligned: every kept position pairs a kept
evaluation with the individual that produced it. -/
theorem umda_c7_truncation (ags : List ℚ → List ℕ) (s : UMDAState)
    (hperm : (ags s.evaluations).Perm (List.range s.evaluations.length))
    (hsort : List.Pairwise (fun i j => s.evaluations.getD i 0 ≤ s.evaluations.getD j 0)
      (ags s.evaluations)) :
    (truncationWith ags s).evaluations
      = (List.insertionSort (· ≤ ·) s.evaluations).take s.truncation_length.toNat
    ∧ List.Sorted (· ≤ ·) (truncationWith ags s).evaluations
    ∧ (truncationWith ags s).generation.length = (truncationWith ags s).evaluations.length
    ∧ ∀ j, j < (truncationWith ags s).evaluations.length →
        ∃ i, i < s.evaluations.length
          ∧ (truncationWith ags s).evaluations.getD j 0 = s.evaluations.getD i 0
          ∧ (truncationWith ags s).generation.getD j [] = s.generation.getD i [] := by
  have key : (ags s.evaluations).map (fun i => s.evaluations.getD i 0)
      = List.insertionSort (· ≤ ·) s.evaluations := by
    apply List.eq_of_perm_of_sorted (r := (· ≤ ·))
    · have p1 : ((ags s.evaluations).map (fun i => s.evaluations.getD i 0)).Perm
          s.evaluations := by
        have h := hperm.map (fun i => s.evaluations.getD i 0)
        rwa [map_getD_range] at h
      exact p1.trans (List.perm_insertionSort _ _).symm
    · exact List.pairwise_map.mpr hsort
    · exact List.sorted_insertionSort _ _
  have heval : (truncationWith ags s).evaluations
      = ((ags s.evaluations).take s.truncation_length.toNat).map
          (fun i => s.evaluations.getD i 0) := rfl
  have hgen : (truncationWith ags s).generation
      = ((ags s.evaluations).take s.truncation_length.toNat).map
          (fun i => s.generation.getD i []) := rfl
  have heq : (truncationWith ags s).evaluations
      = (List.insertionSort (· ≤ ·) s.evaluations).take s.truncation_length.toNat := by
    rw [heval, List.map_take, key]
  refine ⟨heq, ?_, ?_, ?_⟩
  · rw [heq]
    exact List.Pairwise.sublist (List.take_sublist _ _) (List.sorted_insertionSort _ _)
  · rw [heval, hgen, List.length_map, List.length_map]
  · intro j hj
    have hj' : j < ((ags s.evaluations).take s.truncation_length.toNat).length := by
      rw [heval, List.length_map] at hj
      exact hj
    refine ⟨((ags s.evaluations).take s.truncation_length.toNat).getD j 0, ?_, ?_, ?_⟩
    · have hmem : ((ags s.evaluations).take s.truncation_length.toNat).getD j 0
          ∈ (ags s.evaluations).take s.truncation_length.toNat := by
        rw [List.getD_eq_getElem _ _ hj']
        exact List.getElem_mem hj'
      have hmem2 : ((ags s.evaluations).take s.truncation_length.toNat).getD j 0
          ∈ ags s.evaluations := (List.take_sublist _ _).subset hmem
      have hmem3 : ((ags s.evaluations).take s.truncation_length.toNat).getD j 0
          ∈ List.range s.evaluations.length := hperm.subset hmem2
      exact List.mem_range.mp hmem3
    · rw [heval, List.getD_eq_getElem _ _ (by rw [List.length_map]; exact hj'),
        List.getElem_map, List.getD_eq_getElem _ _ hj']
    · rw [hgen, List.getD_eq_getElem _ _ (by rw [List.length_map]; exact hj'),
        List.getElem_map, List.getD_eq_getElem _ _ hj']

/-- C7 witness: a sorting argsort on distinct evaluations `[5, 3]`:
truncation keeps the two pairs in ascending fitness order. -/
theorem umda_c7_witness :
    ((agsW sE.evaluations).Perm (List.range sE.evaluations.length)
      ∧ List.Pairwise (fun i j => sE.evaluations.getD i 0 ≤ sE.evaluations.getD j 0)
          (agsW sE.evaluations))
    ∧ (truncationWith agsW sE).evaluations
        = (List.insertionSort (· ≤ ·) sE.evaluations).take sE.truncation_length.toNat := by
  have h1 : (agsW sE.evaluations).Perm (List.range sE.evaluations.length) := by decide
  have h2 : List.Pairwise (fun i j => sE.evaluations.getD i 0 ≤ sE.evaluations.getD j 0)
      (agsW sE.evaluations) := by decide
  exact ⟨⟨h1, h2⟩, (umda_c7_truncation agsW sE h1 h2).1⟩

/-- C7 counterexample: on 17 individuals of all-equal fitness with
`truncation_length = 17`, the reversed index order is a contract-compliant
argsort output (a permutation that sorts the all-equal values), yet the
truncated population it produces differs from the one prescribed by the
claim — the stable sort, ties in original index order — so the tie-breaking
clause of the claim does not hold for the code. -/
theorem umda_c7_counterexample :
    ((agsRev sC7.evaluations).Perm (List.range sC7.evaluations.length)
      ∧ List.Pairwise (fun i j => sC7.evaluations.getD i 0 ≤ sC7.evaluations.getD j 0)
          (agsRev sC7.evaluations))
    ∧ (truncationWith agsRev sC7).generation ≠ (truncationSpec sC7).generation := by
  exact ⟨⟨by decide, by decide⟩, by decide⟩
